import Mathlib

/-!
Shallow embedding of the bibble agent conversation loop and its
provider-adaptation layer, together with proofs about the embedded code.

Source files embedded:
- src/mcp/agent.ts      (Agent: chat, conversationLoop, processTurn, resetConversation)
- src/llm/client.ts     (LlmClient: isReasoningModel, chatCompletion request
                         shaping, processStreamResponse for OpenAI streams)
- src/llm/anthropic.ts  (AnthropicClient: chatCompletion retry logic,
                         processStreamResponse, processAnthropicStreamChunk)

External collaborators (the network, the tool-protocol client, JSON.parse,
Math.random) are modelled as explicit parameters: a scripted list of provider
turn outcomes, a dispatcher function, a parse function, a supplied fallback id.
-/

deriving instance DecidableEq for Except

namespace Bibble

/-- Message roles, from `MessageRole` in src/types.ts (values "system",
"user", "assistant", "tool"). -/
inductive MessageRole
  | system
  | user
  | assistant
  | tool
deriving DecidableEq

/-- Decoded tool-call arguments. `obj v` stands for a parsed JSON value with
canonical serialization `v` (what `JSON.stringify` would print for it);
`raw s` is the raw-string fallback used when `JSON.parse` failed. -/
inductive ToolArgs
  | obj (v : String)
  | raw (s : String)
deriving DecidableEq

/-- One entry of an assistant message's `toolCalls` array. -/
structure ToolCallData where
  id : String
  name : String
  args : ToolArgs
deriving DecidableEq

/-- A conversation message (`ChatMessage` in src/types.ts). -/
structure ChatMessage where
  role : MessageRole
  content : String
  toolCalls : List ToolCallData := []
  toolName : Option String := none
  toolCallId : Option String := none
deriving DecidableEq

/-- A normalized stream chunk (`StreamChunk` in src/types.ts). -/
inductive StreamChunk
  | text (t : String)
  | tool_call (tc : ToolCallData)
deriving DecidableEq

/-- One event observed while consuming a provider stream: a chunk, or an
exception raised by the stream iterator (carrying the error message). -/
inductive StreamEvent
  | chunk (c : StreamChunk)
  | raise (msg : String)
deriving DecidableEq

/-- A scripted provider turn: `Except.error m` models the
`llmClient.chatCompletion` call itself rejecting with an error whose message
is `m` (before any chunk is produced); `Except.ok evs` models a stream that
produces the given events. -/
abbrev TurnScript := Except String (List StreamEvent)

/-- The tool dispatcher (`McpClient.callTool`): returns the result content,
or the message of the `Error` it throws. -/
abbrev Dispatcher := String → ToolArgs → Except String String

/-- Names of the two built-in control-flow tools (`taskCompletionTool`,
`askQuestionTool` in src/mcp/agent.ts). -/
def exitLoopToolNames : List String := ["task_complete", "ask_question"]

/-- `const MAX_NUM_TURNS = 10` in src/mcp/agent.ts. -/
def MAX_NUM_TURNS : Nat := 10

/-- The hardcoded system prompt (content is immaterial to every claim; kept
as an abstract marker string for the message produced by the constructor and
`resetConversation`). -/
def DEFAULT_SYSTEM_PROMPT : String := "DEFAULT_SYSTEM_PROMPT"

/-- State threaded through `Agent.processTurn`'s stream-consumption loop:
the (mutated) `this.messages`, the strings yielded to the caller so far, the
calls made to `callTool` so far, and the local variables `responseText` and
`hasToolCall`. -/
structure TurnState where
  messages : List ChatMessage
  output : List String
  dispatchCalls : List (String × ToolArgs)
  responseText : String
  hasToolCall : Bool
deriving DecidableEq

/-- `displayArgs` computation in `Agent.processTurn`:
`typeof args === 'string' ? args : JSON.stringify(args)`. -/
def displayArgs : ToolArgs → String
  | .raw s => s
  | .obj v => v

/-- The tool-call notice yielded by `Agent.processTurn`. -/
def toolNotice (name res disp : String) : String :=
  "\n[Tool Call] " ++ name ++ "(" ++ disp ++ ")\n" ++ res ++ "\n"

/-- The inline error yielded when `callTool` throws. -/
def toolErrorText (e : String) : String :=
  "\nError handling tool call: " ++ e ++ "\n"

/-- Processing of one stream chunk inside `Agent.processTurn`'s
`for await` body (the `exitIfFirstChunkNoTool`/`firstChunk` bookkeeping in
the source has no observable effect and is omitted). -/
def stepChunk (dispatch : Dispatcher) (st : TurnState) : StreamChunk → TurnState
  | .text t =>
      { st with responseText := st.responseText ++ t, output := st.output ++ [t] }
  | .tool_call tc =>
      let st := { st with hasToolCall := true,
                          dispatchCalls := st.dispatchCalls ++ [(tc.name, tc.args)] }
      match dispatch tc.name tc.args with
      | .ok res =>
          { st with
            messages := st.messages ++
              [ { role := .assistant, content := st.responseText, toolCalls := [tc] },
                { role := .tool, content := res,
                  toolName := some tc.name, toolCallId := some tc.id } ],
            output := st.output ++ [toolNotice tc.name res (displayArgs tc.args)] }
      | .error e =>
          { st with output := st.output ++ [toolErrorText e] }

/-- Outcome of one `processTurn` invocation: normal completion, or an
exception with message `err` escaping the generator. In both cases the
state records the `this.messages` mutations already performed. -/
inductive TurnOutcome
  | ok (st : TurnState)
  | thrown (err : String) (st : TurnState)
deriving DecidableEq

/-- Consume the scripted stream events. A `raise` event models the
`for await` iteration throwing; at normal exhaustion the trailing assistant
message is appended when no tool call was made. -/
def runEvents (dispatch : Dispatcher) (st : TurnState) : List StreamEvent → TurnOutcome
  | [] =>
      if st.hasToolCall then .ok st
      else .ok { st with
        messages := st.messages ++ [{ role := .assistant, content := st.responseText }] }
  | .chunk c :: rest => runEvents dispatch (stepChunk dispatch st c) rest
  | .raise m :: _ => .thrown m st

/-- Fresh per-turn state. -/
def initTurnState (msgs : List ChatMessage) : TurnState :=
  { messages := msgs, output := [], dispatchCalls := [], responseText := "",
    hasToolCall := false }

/-- `Agent.processTurn`, driven by one scripted provider turn. -/
def processTurn (dispatch : Dispatcher) (msgs : List ChatMessage) :
    TurnScript → TurnOutcome
  | .error m => .thrown m (initTurnState msgs)
  | .ok events => runEvents dispatch (initTurnState msgs) events

/-- The state a `TurnOutcome` carries. -/
def TurnOutcome.state : TurnOutcome → TurnState
  | .ok st => st
  | .thrown _ st => st

/-- Why the conversation loop returned. `outOfScript` means the scripted
provider behavior was exhausted while the loop still wanted another turn
(i.e. the loop did not terminate within the script). -/
inductive StopReason
  | exitTool
  | maxTurns
  | expectedTool
  | aborted
  | errored (msg : String)
  | outOfScript
deriving DecidableEq

/-- Loop bookkeeping: conversation history, yielded output, number of
`processTurn` invocations started (each issues one provider request), and a
trace recording, for each completed turn, the value of `numOfTurns` after it
and the role of the last message then. -/
structure LoopState where
  messages : List ChatMessage
  output : List String
  turnsStarted : Nat
  trace : List (Nat × MessageRole)
deriving DecidableEq

/-- Result of the conversation loop. -/
structure LoopResult where
  messages : List ChatMessage
  output : List String
  turnsStarted : Nat
  numOfTurns : Nat
  trace : List (Nat × MessageRole)
  reason : StopReason
deriving DecidableEq

def mkResult (s : LoopState) (n : Nat) (r : StopReason) : LoopResult :=
  { messages := s.messages, output := s.output, turnsStarted := s.turnsStarted,
    numOfTurns := n, trace := s.trace, reason := r }

/-- `this.messages[this.messages.length - 1]` (history is never empty when
the loop runs; the default is irrelevant junk for the empty case). -/
def lastMessage (msgs : List ChatMessage) : ChatMessage :=
  msgs.getLastD { role := .system, content := "" }

/-- The exit-loop check on the last message:
`currentLast.role === Tool && currentLast.toolName &&
 exitLoopTools.map(t => t.function.name).includes(currentLast.toolName)`. -/
def isExitToolMsg (m : ChatMessage) : Bool :=
  m.role == .tool &&
    (match m.toolName with
     | some n => n != "" && exitLoopToolNames.contains n
     | none => false)

/-- Fold one completed turn into the loop state. -/
def advance (s : LoopState) (st : TurnState) (n' : Nat) : LoopState :=
  { messages := st.messages, output := s.output ++ st.output,
    turnsStarted := s.turnsStarted + 1,
    trace := s.trace ++ [(n', (lastMessage st.messages).role)] }

/-- `Agent.conversationLoop`'s `while (true)` body, driven by the scripted
provider turns. `n` is `numOfTurns`, `flag` is `nextTurnShouldCallTools`. -/
def loopAux (dispatch : Dispatcher) :
    List TurnScript → LoopState → Nat → Bool → LoopResult
  | [], s, n, _ => mkResult s n .outOfScript
  | t :: rest, s, n, flag =>
    match processTurn dispatch s.messages t with
    | .thrown m st =>
      let s' : LoopState := { messages := st.messages, output := s.output ++ st.output,
                              turnsStarted := s.turnsStarted + 1, trace := s.trace }
      if m == "AbortError" then mkResult s' n .aborted
      else mkResult s' n (.errored m)
    | .ok st =>
      let n' := n + 1
      let s' := advance s st n'
      let last := lastMessage st.messages
      if isExitToolMsg last then mkResult s' n' .exitTool
      else if last.role != .tool && decide (n' > MAX_NUM_TURNS) then mkResult s' n' .maxTurns
      else if last.role != .tool && flag then mkResult s' n' .expectedTool
      else loopAux dispatch rest s' n' (last.role != .tool)

/-- `Agent.conversationLoop`: `numOfTurns = 0`,
`nextTurnShouldCallTools = true`. -/
def conversationLoop (dispatch : Dispatcher) (script : List TurnScript)
    (msgs : List ChatMessage) : LoopResult :=
  loopAux dispatch script { messages := msgs, output := [], turnsStarted := 0,
                            trace := [] } 0 true

/-- A user message as pushed by `Agent.chat`. -/
def userMessage (input : String) : ChatMessage :=
  { role := .user, content := input }

/-- `Agent.chat`: push the user message, then run the conversation loop. -/
def chat (dispatch : Dispatcher) (script : List TurnScript)
    (msgs : List ChatMessage) (input : String) : LoopResult :=
  conversationLoop dispatch script (msgs ++ [userMessage input])

/-- `Agent.resetConversation` (also the history built by the constructor):
a fresh list holding the system prompt plus the optional guidelines
message (`if (userGuidelines)` is a JS truthiness test). -/
def resetConversation (userGuidelines : Option String) : List ChatMessage :=
  let base : List ChatMessage := [{ role := .system, content := DEFAULT_SYSTEM_PROMPT }]
  match userGuidelines with
  | some g =>
      if g == "" then base
      else base ++ [{ role := .system, content := "Additional user guidelines: " ++ g }]
  | none => base

/-! ## LlmClient (src/llm/client.ts) -/

/-- `String.prototype.toLowerCase` (ASCII; model ids are ASCII). -/
def toLowerStr (s : String) : String := String.mk (s.data.map Char.toLower)

/-- Static model configuration (`ModelConfig` entries under the "models"
config key); only the fields the embedded code reads. -/
structure ModelConfig where
  id : String
  maxTokens : Option Nat := none
  temperature : Option Rat := none
  maxCompletionTokens : Option Nat := none
  reasoningEffort : Option String := none
  isReasoningModel : Option Bool := none
deriving DecidableEq

/-- The parameter object `Agent.processTurn` hands to
`llmClient.chatCompletion` (only the model-specific generation parameters;
messages/tools/abortSignal are threaded separately in this embedding). -/
structure ChatParams where
  model : String
  temperature : Option Rat := none
  maxTokens : Option Nat := none
  maxCompletionTokens : Option Nat := none
  reasoningEffort : Option String := none
deriving DecidableEq

/-- `Agent.processTurn`'s model-specific parameter filling:
look up the model config (case-insensitive id match) and copy either
reasoning-model or standard parameters (`modelConfig.reasoningEffort ||
"medium"` is a JS truthiness fallback; `if (modelConfig.isReasoningModel)`
is a truthiness test). -/
def buildChatParams (models : List ModelConfig) (model : String) : ChatParams :=
  match models.find? (fun m => toLowerStr m.id == toLowerStr model) with
  | none => { model := model }
  | some mc =>
      if mc.isReasoningModel == some true then
        { model := model,
          reasoningEffort := some (match mc.reasoningEffort with
            | some e => if e == "" then "medium" else e
            | none => "medium"),
          maxCompletionTokens := mc.maxCompletionTokens }
      else
        { model := model, temperature := mc.temperature, maxTokens := mc.maxTokens }

/-- The regex test `/^o\d/.test(normalizedModelId)`: the (lower-cased) id
starts with the letter o followed by a decimal digit. -/
def isOSeries (id : String) : Bool :=
  match id.data with
  | 'o' :: c :: _ => c.isDigit
  | _ => false

/-- `LlmClient.isReasoningModel`. -/
def isReasoningModel (models : List ModelConfig) (modelId : String) : Bool :=
  let normalizedModelId := toLowerStr modelId
  let isO := isOSeries normalizedModelId
  let modelConfig := models.find? (fun m => toLowerStr m.id == normalizedModelId)
  isO || (match modelConfig with
          | some m => m.isReasoningModel == some true
          | none => false)

/-- The outbound OpenAI request object (only the generation-parameter
fields; `model`, `messages`, `stream`, `tools`, `tool_choice` are fixed). -/
structure OpenAIRequest where
  model : String
  temperature : Option Rat := none
  max_tokens : Option Nat := none
  reasoning_effort : Option String := none
  max_completion_tokens : Option Nat := none
deriving DecidableEq

/-- Request shaping in `LlmClient.chatCompletion` (OpenAI branch):
reasoning models get `reasoning_effort` (params value if truthy, else
"medium") and `max_completion_tokens` (only if truthy, so 0/undefined are
dropped); other models get `temperature`/`max_tokens` when they are not
undefined. -/
def buildOpenAIRequest (models : List ModelConfig) (p : ChatParams) : OpenAIRequest :=
  let base : OpenAIRequest := { model := p.model }
  if isReasoningModel models p.model then
    let base := { base with reasoning_effort := some (match p.reasoningEffort with
      | some e => if e == "" then "medium" else e
      | none => "medium") }
    match p.maxCompletionTokens with
    | some n => if n == 0 then base else { base with max_completion_tokens := some n }
    | none => base
  else
    let base := match p.temperature with
      | some t => { base with temperature := some t }
      | none => base
    match p.maxTokens with
    | some n => { base with max_tokens := some n }
    | none => base

/-! ### OpenAI stream normalizer (`LlmClient.processStreamResponse`) -/

/-- `delta.tool_calls[i].function`. -/
structure DeltaFunction where
  name : Option String := none
  arguments : Option String := none
deriving DecidableEq

/-- One entry of `delta.tool_calls`. -/
structure DeltaToolCall where
  index : Nat
  id : Option String := none
  function : Option DeltaFunction := none
deriving DecidableEq

/-- `chunk.choices[0].delta`. -/
structure WireDelta where
  content : Option String := none
  tool_calls : List DeltaToolCall := []
deriving DecidableEq

/-- One wire chunk of an OpenAI-style stream (`chunk.choices[0]`,
flattened: its `delta` and `finish_reason`). -/
structure WireChunk where
  delta : Option WireDelta := none
  finish_reason : Option String := none
deriving DecidableEq

/-- The in-progress tool call buffered across wire chunks
(`activeToolCall`). -/
structure ActiveToolCall where
  id : String
  name : String
  args : String
deriving DecidableEq

/-- JS `o || ""` on an optional string. -/
def orEmpty : Option String → String
  | some s => s
  | none => ""

/-- JS truthiness of an optional string. -/
def truthyStr : Option String → Bool
  | some s => s != ""
  | none => false

/-- Processing of a single wire chunk: returns the updated `activeToolCall`
and the chunks yielded for this wire chunk, in order. A chunk with no delta
is skipped entirely (`if (!delta) continue`), including its
`finish_reason`. `parse` models `JSON.parse` (returning the canonical form
of the parsed value, or `none` on a parse failure, which the code catches
and falls back to the raw string). -/
def stepWire (parse : String → Option String) (active : Option ActiveToolCall)
    (c : WireChunk) : Option ActiveToolCall × List StreamChunk :=
  match c.delta with
  | none => (active, [])
  | some d =>
    let textOut : List StreamChunk := match d.content with
      | some t => if t == "" then [] else [.text t]
      | none => []
    let active := match d.tool_calls with
      | [] => active
      | tc :: _ =>
        let active :=
          if tc.index == 0 && truthyStr tc.id then
            some { id := orEmpty tc.id,
                   name := orEmpty (tc.function.bind DeltaFunction.name),
                   args := orEmpty (tc.function.bind DeltaFunction.arguments) }
          else active
        match active with
        | none => none
        | some a =>
          let a := match tc.function.bind DeltaFunction.name with
            | some nm => if nm == "" then a else { a with name := nm }
            | none => a
          let a := match tc.function.bind DeltaFunction.arguments with
            | some ar => if ar == "" then a else { a with args := a.args ++ ar }
            | none => a
          some a
    if c.finish_reason == some "tool_calls" then
      match active with
      | some a =>
        let args := match parse a.args with
          | some v => ToolArgs.obj v
          | none => ToolArgs.raw a.args
        (none, textOut ++ [.tool_call { id := a.id, name := a.name, args := args }])
      | none => (active, textOut)
    else (active, textOut)

/-- `LlmClient.processStreamResponse`: fold `stepWire` over the wire
chunks, concatenating the yielded chunks. -/
def processStreamResponse (parse : String → Option String) :
    List WireChunk → Option ActiveToolCall → List StreamChunk
  | [], _ => []
  | c :: rest, active =>
      let r := stepWire parse active c
      r.2 ++ processStreamResponse parse rest r.1

/-! ## AnthropicClient (src/llm/anthropic.ts) -/

/-- Whether `pat` is a prefix of the second list. -/
def isPrefixList : List Char → List Char → Bool
  | [], _ => true
  | _ :: _, [] => false
  | a :: as, b :: bs => a == b && isPrefixList as bs

/-- Whether `pat` occurs somewhere in the second list. -/
def containsList (pat : List Char) : List Char → Bool
  | [] => pat.isEmpty
  | c :: rest => isPrefixList pat (c :: rest) || containsList pat rest

/-- `String.prototype.includes`. -/
def includesSubstr (m pat : String) : Bool :=
  containsList pat.data m.data

/-- The nested `tool_use` object read (optionally) off content blocks and
message-delta content items. -/
structure AnthInnerToolUse where
  id : Option String := none
  name : Option String := none
  input : Option String := none
deriving DecidableEq

/-- `chunk.content_block`. -/
structure AnthContentBlock where
  type : String
  text : Option String := none
  id : Option String := none
  name : Option String := none
  tool_use : Option AnthInnerToolUse := none
deriving DecidableEq

/-- One item of `chunk.delta.content`. -/
structure AnthDeltaContentItem where
  type : String
  text : Option String := none
  tool_use : Option AnthInnerToolUse := none
deriving DecidableEq

/-- `chunk.delta`. -/
structure AnthDelta where
  text : Option String := none
  content : Option (List AnthDeltaContentItem) := none
deriving DecidableEq

/-- One wire chunk of an Anthropic-style stream. -/
structure AnthChunk where
  type : String
  delta : Option AnthDelta := none
  content_block : Option AnthContentBlock := none
deriving DecidableEq

/-- JS `o || d` on an optional string (empty string is falsy). -/
def orDefaultStr (o : Option String) (d : String) : String :=
  match o with
  | some s => if s == "" then d else s
  | none => d

/-- Canonical serialization of the empty JSON object (the `|| \x7b\x7d`
fallback for a missing tool input). -/
def emptyJsonObject : String := "\x7b\x7d"

/-- `AnthropicClient.processAnthropicStreamChunk`. `randomId` stands in for
the `Math.random()`-derived fallback id. -/
def processAnthropicStreamChunk (randomId : String) (chunk : AnthChunk) :
    Option StreamChunk :=
  if chunk.type == "content_block_delta" && truthyStr (chunk.delta.bind AnthDelta.text) then
    some (.text (orEmpty (chunk.delta.bind AnthDelta.text)))
  else if chunk.type == "content_block_start" &&
      ((chunk.content_block.map AnthContentBlock.type) == some "tool_use") then
    match chunk.content_block with
    | some toolUse =>
        some (.tool_call
          { id := orDefaultStr toolUse.id randomId,
            name := orEmpty toolUse.name,
            args := .obj (match toolUse.tool_use.bind AnthInnerToolUse.input with
              | some v => v
              | none => emptyJsonObject) })
    | none => none
  else if chunk.type == "message_delta" then
    match chunk.delta.bind AnthDelta.content with
    | some items =>
        (items.find? (fun it => it.type == "tool_use" && it.tool_use.isSome)).map
          (fun it => .tool_call
            { id := orDefaultStr (it.tool_use.bind AnthInnerToolUse.id) randomId,
              name := orEmpty (it.tool_use.bind AnthInnerToolUse.name),
              args := .obj (match it.tool_use.bind AnthInnerToolUse.input with
                | some v => v
                | none => emptyJsonObject) })
    | none => none
  else none

/-- One item observed while iterating an Anthropic stream: a wire chunk, or
the iteration throwing an error with the given message. -/
abbrev AnthStreamItem := Except String AnthChunk

/-- The fixed text yielded when streaming fails with an overloaded error. -/
def anthOverloadedText : String :=
  "\n\nError: Anthropic API is currently overloaded. Please try again in a few moments or try using a different model."

/-- The text yielded when streaming fails with any other error. -/
def anthErrorText (m : String) : String :=
  "\n\nError from Anthropic API: " ++ m

/-- `AnthropicClient.processStreamResponse`: convert each chunk, dropping
nulls; a thrown error ends the stream with a single inline text chunk (the
overloaded message, or the error message otherwise). -/
def anthProcessStreamResponse (randomId : String) :
    List AnthStreamItem → List StreamChunk
  | [] => []
  | .ok c :: rest =>
      match processAnthropicStreamChunk randomId c with
      | some sc => sc :: anthProcessStreamResponse randomId rest
      | none => anthProcessStreamResponse randomId rest
  | .error m :: _ =>
      [.text (if includesSubstr m "overloaded" then anthOverloadedText
              else anthErrorText m)]

/-- `const maxRetries = 3` in `AnthropicClient.chatCompletion`. -/
def maxRetries : Nat := 3

/-- Outcome of one `this.client.messages.create` attempt: a stream of
items, or a rejection with the given error message. -/
abbrev AttemptResult := Except String (List AnthStreamItem)

/-- Result of the retry loop in `AnthropicClient.chatCompletion`:
how many `create` calls were made, the backoff waits performed (in ms), and
either the obtained stream or the error finally thrown to the caller. -/
structure AnthRetryResult where
  attempts : Nat
  waits : List Nat
  outcome : Except String (List AnthStreamItem)
deriving DecidableEq

/-- The `while (retryCount < maxRetries)` retry loop. `outcomes k` is the
result of the `create` call made with `retryCount = k`. The fuel argument
equals `maxRetries - retryCount`; the fuel-0 branch corresponds to the loop
exiting with no response, which is unreachable from `anthCreateWithRetry`
(every path either breaks with a response or throws). -/
def anthRetryAux (outcomes : Nat → AttemptResult) :
    Nat → Nat → List Nat → AnthRetryResult
  | 0, rc, waits => { attempts := rc, waits := waits, outcome := .error "unreachable" }
  | fuel + 1, rc, waits =>
    match outcomes rc with
    | .ok stream => { attempts := rc + 1, waits := waits, outcome := .ok stream }
    | .error e =>
      if includesSubstr e "overloaded" then
        if rc + 1 < maxRetries then
          anthRetryAux outcomes fuel (rc + 1) (waits ++ [2 ^ (rc + 1) * 1000])
        else { attempts := rc + 1, waits := waits, outcome := .error e }
      else { attempts := rc + 1, waits := waits, outcome := .error e }

/-- The retry loop as entered by `AnthropicClient.chatCompletion`. -/
def anthCreateWithRetry (outcomes : Nat → AttemptResult) : AnthRetryResult :=
  anthRetryAux outcomes maxRetries 0 []

/-! ## Derived notions used by the theorem statements -/

/-- Concatenation of a list of strings. -/
def concatStrs : List String → String
  | [] => ""
  | s :: l => s ++ concatStrs l

/-- A run of plain text chunks, as stream events. -/
def textEvents (l : List String) : List StreamEvent :=
  l.map (fun t => .chunk (.text t))

/-- The per-turn cap condition: a completed turn either ended in a
Tool-role message or had `numOfTurns ≤ MAX_NUM_TURNS`. -/
def capB (p : Nat × MessageRole) : Bool :=
  p.2 == .tool || decide (p.1 ≤ MAX_NUM_TURNS)

/-- Whether `cur` may legally follow `prev`: a Tool-role message must
follow an Assistant message holding a tool call with the matching id. -/
def toolLinked (prev cur : ChatMessage) : Bool :=
  match cur.role with
  | .tool => prev.role == .assistant &&
      prev.toolCalls.any (fun tc => some tc.id == cur.toolCallId)
  | _ => true

/-- Adjacent-pair consistency of a message list. -/
def chainOk : List ChatMessage → Bool
  | a :: b :: rest => toolLinked a b && chainOk (b :: rest)
  | _ => true

/-- History-consistency invariant: no Tool-role message opens the history,
and every Tool-role message is linked to the immediately preceding
Assistant message. -/
def consistentB (l : List ChatMessage) : Bool :=
  (match l with
   | [] => true
   | m :: _ => !(m.role == .tool)) && chainOk l

/-! ## Concrete fixtures for witnesses and counterexamples -/

/-- A dispatcher whose every call succeeds with content "result". -/
def okDispatch : Dispatcher := fun _ _ => .ok "result"

/-- A dispatcher whose every call throws with message "boom". -/
def errDispatch : Dispatcher := fun _ _ => .error "boom"

/-- A `JSON.parse` model that fails on every input. -/
def noParse : String → Option String := fun _ => none

def sysMsg : ChatMessage := { role := .system, content := "s" }

/-- A sample (non-control-flow) tool call. -/
def tcS : ToolCallData := { id := "c1", name := "mytool", args := .raw "x" }

/-- A provider turn that calls the sample tool. -/
def toolTurn : TurnScript := .ok [.chunk (.tool_call tcS)]

/-- A provider turn that only streams the text "ok". -/
def textTurn : TurnScript := .ok [.chunk (.text "ok")]

/-- A provider turn that calls the control-flow tool `task_complete`. -/
def exitTurn : TurnScript :=
  .ok [.chunk (.tool_call { id := "e", name := "task_complete", args := .raw "" })]

/-- Six repetitions of (tool turn, text turn): twelve turns in all. -/
def script12 : List TurnScript :=
  [toolTurn, textTurn, toolTurn, textTurn, toolTurn, textTurn,
   toolTurn, textTurn, toolTurn, textTurn, toolTurn, textTurn]

/-- A history whose most recent message is a `task_complete` Tool message. -/
def initC3 : List ChatMessage :=
  [sysMsg, { role := .tool, content := "", toolName := some "task_complete",
             toolCallId := some "x" }]

/-- One turn that streams a successful tool call and then gets aborted
mid-stream. -/
def abortScript : List TurnScript :=
  [.ok [.chunk (.tool_call tcS), .raise "AbortError"]]

/-- Model-config fixture for the reasoning-model request test. -/
def m0 : List ModelConfig :=
  [{ id := "o4-mini", isReasoningModel := some true,
     reasoningEffort := some "high", maxCompletionTokens := some 4096 }]

/-- The first wire chunk of an OpenAI tool-call stream: slot 0, carrying
the call id and the function name. -/
def initToolChunk (id nm : String) : WireChunk :=
  { delta := some { tool_calls :=
      [{ index := 0, id := some id, function := some { name := some nm } }] } }

/-- A subsequent wire chunk carrying one fragment of the argument text. -/
def argFragChunk (s : String) : WireChunk :=
  { delta := some { tool_calls :=
      [{ index := 0, function := some { arguments := some s } }] } }

/-- The final wire chunk: an empty delta with finish reason "tool_calls". -/
def finishToolChunk : WireChunk :=
  { delta := some {}, finish_reason := some "tool_calls" }

/-! ## Turn-level lemmas -/

/-- Consuming a run of text chunks only accumulates `responseText` and
forwards the texts to the caller. -/
theorem runEvents_textEvents_append (d : Dispatcher) (st : TurnState)
    (ts : List String) (rest : List StreamEvent) :
    runEvents d st (textEvents ts ++ rest) =
      runEvents d
        { st with
          responseText := st.responseText ++ concatStrs ts
          output := st.output ++ ts } rest := by
  induction ts generalizing st with
  | nil => simp [textEvents, concatStrs]
  | cons t ts ih =>
      have h1 : textEvents (t :: ts) ++ rest =
          .chunk (.text t) :: (textEvents ts ++ rest) := by simp [textEvents]
      rw [h1]
      show runEvents d (stepChunk d st (.text t)) (textEvents ts ++ rest) = _
      rw [ih]
      simp [stepChunk, concatStrs, String.append_assoc]

/-- General description of a turn whose stream is a run of texts, one
successfully dispatched tool call, then a run of texts. -/
theorem processTurn_tool_ok (d : Dispatcher) (msgs : List ChatMessage)
    (ts1 ts2 : List String) (tc : ToolCallData) (res : String)
    (hd : d tc.name tc.args = .ok res) :
    processTurn d msgs
        (.ok (textEvents ts1 ++ .chunk (.tool_call tc) :: textEvents ts2)) =
      .ok { messages := msgs ++
              [{ role := .assistant, content := concatStrs ts1, toolCalls := [tc] },
               { role := .tool, content := res, toolName := some tc.name,
                 toolCallId := some tc.id }],
            output := ts1 ++ toolNotice tc.name res (displayArgs tc.args) :: ts2,
            dispatchCalls := [(tc.name, tc.args)],
            responseText := concatStrs ts1 ++ concatStrs ts2,
            hasToolCall := true } := by
  simp only [processTurn]
  rw [runEvents_textEvents_append]
  simp only [runEvents, stepChunk, hd]
  rw [show textEvents ts2 = textEvents ts2 ++ [] from (List.append_nil _).symm,
      runEvents_textEvents_append]
  simp [initTurnState, runEvents]

/-- General description of a turn whose single tool call fails to
dispatch: nothing is appended to history at all, an inline error is
yielded, and the turn still completes normally. -/
theorem processTurn_tool_err (d : Dispatcher) (msgs : List ChatMessage)
    (ts1 ts2 : List String) (tc : ToolCallData) (e : String)
    (hd : d tc.name tc.args = .error e) :
    processTurn d msgs
        (.ok (textEvents ts1 ++ .chunk (.tool_call tc) :: textEvents ts2)) =
      .ok { messages := msgs,
            output := ts1 ++ toolErrorText e :: ts2,
            dispatchCalls := [(tc.name, tc.args)],
            responseText := concatStrs ts1 ++ concatStrs ts2,
            hasToolCall := true } := by
  simp only [processTurn]
  rw [runEvents_textEvents_append]
  simp only [runEvents, stepChunk, hd]
  rw [show textEvents ts2 = textEvents ts2 ++ [] from (List.append_nil _).symm,
      runEvents_textEvents_append]
  simp [initTurnState, runEvents]

/-- C4: for every provider stream that emits a tool_call chunk whose
dispatch succeeds (amid arbitrary text chunks), the turn invokes the
dispatcher exactly once with the decoded arguments, appends exactly one
Assistant message (carrying the text accumulated so far plus the single
tool call) immediately followed by exactly one Tool message with the
result, and yields the formatted notice containing the tool name and the
result text. -/
theorem c4_tool_call_turn (d : Dispatcher) (msgs : List ChatMessage)
    (ts1 ts2 : List String) (tc : ToolCallData) (res : String)
    (hd : d tc.name tc.args = .ok res) :
    processTurn d msgs
        (.ok (textEvents ts1 ++ .chunk (.tool_call tc) :: textEvents ts2)) =
      .ok { messages := msgs ++
              [{ role := .assistant, content := concatStrs ts1, toolCalls := [tc] },
               { role := .tool, content := res, toolName := some tc.name,
                 toolCallId := some tc.id }],
            output := ts1 ++ toolNotice tc.name res (displayArgs tc.args) :: ts2,
            dispatchCalls := [(tc.name, tc.args)],
            responseText := concatStrs ts1 ++ concatStrs ts2,
            hasToolCall := true } :=
  processTurn_tool_ok d msgs ts1 ts2 tc res hd

/-- Witness for C4 at a concrete stream, dispatcher and history. -/
theorem c4_tool_call_turn_witness :
    okDispatch tcS.name tcS.args = .ok "result" ∧
    processTurn okDispatch [sysMsg]
        (.ok (textEvents ["x"] ++ .chunk (.tool_call tcS) :: textEvents [])) =
      .ok { messages := [sysMsg] ++
              [{ role := .assistant, content := concatStrs ["x"], toolCalls := [tcS] },
               { role := .tool, content := "result", toolName := some tcS.name,
                 toolCallId := some tcS.id }],
            output := ["x"] ++ toolNotice tcS.name "result" (displayArgs tcS.args) :: [],
            dispatchCalls := [(tcS.name, tcS.args)],
            responseText := concatStrs ["x"] ++ concatStrs [],
            hasToolCall := true } :=
  ⟨rfl, c4_tool_call_turn okDispatch [sysMsg] ["x"] [] tcS "result" rfl⟩

/-- C10: when the single tool call of a turn fails to dispatch, no message
at all is appended for that chunk (and no trailing Assistant message is
appended either, since a tool call was registered for the turn); the error
is caught locally, an inline error chunk is yielded, and the turn completes
normally with the history exactly as before. -/
theorem c10_dispatch_failure (d : Dispatcher) (msgs : List ChatMessage)
    (ts1 ts2 : List String) (tc : ToolCallData) (e : String)
    (hd : d tc.name tc.args = .error e) :
    processTurn d msgs
        (.ok (textEvents ts1 ++ .chunk (.tool_call tc) :: textEvents ts2)) =
      .ok { messages := msgs,
            output := ts1 ++ toolErrorText e :: ts2,
            dispatchCalls := [(tc.name, tc.args)],
            responseText := concatStrs ts1 ++ concatStrs ts2,
            hasToolCall := true } :=
  processTurn_tool_err d msgs ts1 ts2 tc e hd

/-- Witness for C10 at a concrete stream, dispatcher and history. -/
theorem c10_dispatch_failure_witness :
    errDispatch tcS.name tcS.args = .error "boom" ∧
    processTurn errDispatch [sysMsg]
        (.ok (textEvents ["x"] ++ .chunk (.tool_call tcS) :: textEvents ["y"])) =
      .ok { messages := [sysMsg],
            output := ["x"] ++ toolErrorText "boom" :: ["y"],
            dispatchCalls := [(tcS.name, tcS.args)],
            responseText := concatStrs ["x"] ++ concatStrs ["y"],
            hasToolCall := true } :=
  ⟨rfl, c10_dispatch_failure errDispatch [sysMsg] ["x"] ["y"] tcS "boom" rfl⟩

/-! ## History-consistency lemmas -/

theorem toolLinked_of_nontool (a y : ChatMessage) (hy : y.role ≠ .tool) :
    toolLinked a y = true := by
  unfold toolLinked
  cases h : y.role <;> simp_all

theorem chainOk_snoc (xs : List ChatMessage) (y : ChatMessage)
    (h : chainOk xs = true)
    (hy : ∀ a, xs.getLast? = some a → toolLinked a y = true) :
    chainOk (xs ++ [y]) = true := by
  induction xs with
  | nil => simp [chainOk]
  | cons a xs ih =>
      cases xs with
      | nil =>
          have ha := hy a (by simp)
          simp [chainOk, ha]
      | cons b xs' =>
          simp only [chainOk, Bool.and_eq_true] at h
          have h2 := ih h.2 (fun a' ha' => hy a' (by
            rw [List.getLast?_cons_cons]; exact ha'))
          simp only [List.cons_append] at h2 ⊢
          simp only [chainOk, Bool.and_eq_true]
          exact ⟨h.1, by simpa using h2⟩

theorem consistentB_snoc_nontool (xs : List ChatMessage) (y : ChatMessage)
    (h : consistentB xs = true) (hy : y.role ≠ .tool) :
    consistentB (xs ++ [y]) = true := by
  unfold consistentB at h ⊢
  simp only [Bool.and_eq_true] at h ⊢
  refine ⟨?_, chainOk_snoc xs y h.2 (fun a _ => toolLinked_of_nontool a y hy)⟩
  cases xs with
  | nil => simpa using hy
  | cons a xs => simpa using h.1

theorem consistentB_snoc_last (xs : List ChatMessage) (y : ChatMessage)
    (h : consistentB xs = true) (hne : xs ≠ [])
    (hy : ∀ a, xs.getLast? = some a → toolLinked a y = true) :
    consistentB (xs ++ [y]) = true := by
  unfold consistentB at h ⊢
  simp only [Bool.and_eq_true] at h ⊢
  refine ⟨?_, chainOk_snoc xs y h.2 hy⟩
  cases xs with
  | nil => exact absurd rfl hne
  | cons a xs => simpa using h.1

theorem consistentB_append_pair (xs : List ChatMessage) (tc : ToolCallData)
    (txt res : String) (h : consistentB xs = true) :
    consistentB (xs ++
      [{ role := .assistant, content := txt, toolCalls := [tc] },
       { role := .tool, content := res, toolName := some tc.name,
         toolCallId := some tc.id }]) = true := by
  have h1 : consistentB
      (xs ++ [{ role := .assistant, content := txt, toolCalls := [tc] }]) = true :=
    consistentB_snoc_nontool xs _ h (by simp)
  have h2 : consistentB
      ((xs ++ [{ role := .assistant, content := txt, toolCalls := [tc] }]) ++
        [{ role := .tool, content := res, toolName := some tc.name,
           toolCallId := some tc.id }]) = true := by
    refine consistentB_snoc_last _ _ h1 (by simp) (fun a ha => ?_)
    rw [List.getLast?_concat] at ha
    cases ha
    simp [toolLinked]
  simpa [List.append_assoc] using h2

theorem stepChunk_consistent (d : Dispatcher) (st : TurnState) (c : StreamChunk)
    (h : consistentB st.messages = true) :
    consistentB (stepChunk d st c).messages = true := by
  cases c with
  | text t => simpa [stepChunk]
  | tool_call tc =>
      simp only [stepChunk]
      cases hd : d tc.name tc.args with
      | ok res => simpa using consistentB_append_pair st.messages tc st.responseText res h
      | error e => simpa

theorem runEvents_consistent (d : Dispatcher) (evs : List StreamEvent) (st : TurnState)
    (h : consistentB st.messages = true) :
    consistentB (runEvents d st evs).state.messages = true := by
  induction evs generalizing st with
  | nil =>
      simp only [runEvents]
      split
      · simpa [TurnOutcome.state]
      · simpa [TurnOutcome.state] using
          consistentB_snoc_nontool st.messages _ h (by simp)
  | cons e evs ih =>
      cases e with
      | chunk c =>
          simpa [runEvents] using ih (stepChunk d st c) (stepChunk_consistent d st c h)
      | raise m => simpa [runEvents, TurnOutcome.state]

theorem processTurn_consistent (d : Dispatcher) (msgs : List ChatMessage)
    (t : TurnScript) (h : consistentB msgs = true) :
    consistentB (processTurn d msgs t).state.messages = true := by
  cases t with
  | error m => simpa [processTurn, TurnOutcome.state, initTurnState]
  | ok evs =>
      simpa [processTurn] using
        runEvents_consistent d evs (initTurnState msgs) (by simpa [initTurnState])

/-! ## Append-only lemmas -/

theorem stepChunk_messages_append (d : Dispatcher) (st : TurnState) (c : StreamChunk) :
    ∃ u, (stepChunk d st c).messages = st.messages ++ u := by
  cases c with
  | text t => exact ⟨[], by simp [stepChunk]⟩
  | tool_call tc =>
      simp only [stepChunk]
      cases hd : d tc.name tc.args with
      | ok res => exact ⟨_, rfl⟩
      | error e => exact ⟨[], by simp⟩

theorem runEvents_messages_append (d : Dispatcher) (evs : List StreamEvent)
    (st : TurnState) :
    ∃ u, (runEvents d st evs).state.messages = st.messages ++ u := by
  induction evs generalizing st with
  | nil =>
      simp only [runEvents]
      split
      · exact ⟨[], by simp [TurnOutcome.state]⟩
      · exact ⟨[{ role := .assistant, content := st.responseText }],
          by simp [TurnOutcome.state]⟩
  | cons e evs ih =>
      cases e with
      | chunk c =>
          obtain ⟨u1, hu1⟩ := stepChunk_messages_append d st c
          obtain ⟨u2, hu2⟩ := ih (stepChunk d st c)
          exact ⟨u1 ++ u2, by simp [runEvents, hu2, hu1, List.append_assoc]⟩
      | raise m => exact ⟨[], by simp [runEvents, TurnOutcome.state]⟩

theorem processTurn_messages_append (d : Dispatcher) (msgs : List ChatMessage)
    (t : TurnScript) :
    ∃ u, (processTurn d msgs t).state.messages = msgs ++ u := by
  cases t with
  | error m => exact ⟨[], by simp [processTurn, TurnOutcome.state, initTurnState]⟩
  | ok evs =>
      simpa [processTurn, initTurnState] using
        runEvents_messages_append d evs (initTurnState msgs)

theorem loopAux_messages_append (d : Dispatcher) (script : List TurnScript) :
    ∀ (s : LoopState) (n : Nat) (flag : Bool),
      ∃ u, (loopAux d script s n flag).messages = s.messages ++ u := by
  induction script with
  | nil => exact fun s n flag => ⟨[], by simp [loopAux, mkResult]⟩
  | cons t rest ih =>
      intro s n flag
      obtain ⟨u, hu⟩ := processTurn_messages_append d s.messages t
      cases hpt : processTurn d s.messages t with
      | thrown m st =>
          rw [hpt] at hu
          simp only [TurnOutcome.state] at hu
          simp only [loopAux, hpt]
          split
          · exact ⟨u, by simp [mkResult, hu]⟩
          · exact ⟨u, by simp [mkResult, hu]⟩
      | ok st =>
          rw [hpt] at hu
          simp only [TurnOutcome.state] at hu
          simp only [loopAux, hpt]
          split
          · exact ⟨u, by simp [mkResult, advance, hu]⟩
          · split
            · exact ⟨u, by simp [mkResult, advance, hu]⟩
            · split
              · exact ⟨u, by simp [mkResult, advance, hu]⟩
              · obtain ⟨u2, hu2⟩ := ih (advance s st (n + 1)) (n + 1)
                  ((lastMessage st.messages).role != .tool)
                refine ⟨u ++ u2, ?_⟩
                show (loopAux d rest (advance s st (n + 1)) (n + 1)
                  ((lastMessage st.messages).role != .tool)).messages = _
                rw [hu2]
                simp [advance, hu, List.append_assoc]

theorem loopAux_consistent (d : Dispatcher) (script : List TurnScript) :
    ∀ (s : LoopState) (n : Nat) (flag : Bool), consistentB s.messages = true →
      consistentB (loopAux d script s n flag).messages = true := by
  induction script with
  | nil => intro s n flag h; simpa [loopAux, mkResult]
  | cons t rest ih =>
      intro s n flag h
      have hc := processTurn_consistent d s.messages t h
      cases hpt : processTurn d s.messages t with
      | thrown m st =>
          rw [hpt] at hc
          simp only [TurnOutcome.state] at hc
          simp only [loopAux, hpt]
          split
          · simpa [mkResult]
          · simpa [mkResult]
      | ok st =>
          rw [hpt] at hc
          simp only [TurnOutcome.state] at hc
          simp only [loopAux, hpt]
          split
          · simpa [mkResult, advance]
          · split
            · simpa [mkResult, advance]
            · split
              · simpa [mkResult, advance]
              · exact ih (advance s st (n + 1)) (n + 1)
                  ((lastMessage st.messages).role != .tool) (by simpa [advance])

/-- C2: every history produced by `chat` from a consistent starting
history is consistent (every Tool-role message is linked to a tool call of
the immediately preceding Assistant message), the starting history plus
the initiating user message is only ever appended to, and the wholesale
replacement installed by `resetConversation` is itself consistent. -/
theorem c2_history_invariant (d : Dispatcher) (script : List TurnScript)
    (init : List ChatMessage) (input : String) (g : Option String)
    (h : consistentB init = true) :
    consistentB (chat d script init input).messages = true ∧
    (∃ u, (chat d script init input).messages = (init ++ [userMessage input]) ++ u) ∧
    consistentB (resetConversation g) = true := by
  have hinit : consistentB (init ++ [userMessage input]) = true :=
    consistentB_snoc_nontool init _ h (by simp [userMessage])
  refine ⟨?_, ?_, ?_⟩
  · exact loopAux_consistent d script _ 0 true (by simpa [chat, conversationLoop])
  · simpa [chat, conversationLoop] using
      loopAux_messages_append d script
        { messages := init ++ [userMessage input], output := [], turnsStarted := 0,
          trace := [] } 0 true
  · cases g with
    | none => decide
    | some s =>
        by_cases hs : s == ""
        · simp [resetConversation, hs, consistentB, chainOk, toolLinked]
        · simp [resetConversation, hs, consistentB, chainOk, toolLinked]

/-- Witness for C2 at a concrete dispatcher, script and history. -/
theorem c2_history_invariant_witness :
    consistentB [sysMsg] = true ∧
    consistentB (chat okDispatch [toolTurn] [sysMsg] "hi").messages = true ∧
    (∃ u, (chat okDispatch [toolTurn] [sysMsg] "hi").messages =
      ([sysMsg] ++ [userMessage "hi"]) ++ u) ∧
    consistentB (resetConversation (some "g")) = true := by
  have := c2_history_invariant okDispatch [toolTurn] [sysMsg] "hi" (some "g") (by decide)
  exact ⟨by decide, this.1, this.2.1, this.2.2⟩

/-! ## Loop counting and trace lemmas -/

theorem loopAux_started_ge (d : Dispatcher) (script : List TurnScript) :
    ∀ (s : LoopState) (n : Nat) (flag : Bool),
      s.turnsStarted ≤ (loopAux d script s n flag).turnsStarted := by
  induction script with
  | nil => intro s n flag; simp [loopAux, mkResult]
  | cons t rest ih =>
      intro s n flag
      cases hpt : processTurn d s.messages t with
      | thrown m st =>
          simp only [loopAux, hpt]
          split <;> simp [mkResult]
      | ok st =>
          simp only [loopAux, hpt]
          split
          · simp [mkResult, advance]
          · split
            · simp [mkResult, advance]
            · split
              · simp [mkResult, advance]
              · have h2 := ih (advance s st (n + 1)) (n + 1)
                  ((lastMessage st.messages).role != .tool)
                have hadv : (advance s st (n + 1)).turnsStarted = s.turnsStarted + 1 := rfl
                show s.turnsStarted ≤ (loopAux d rest (advance s st (n + 1)) (n + 1)
                  ((lastMessage st.messages).role != .tool)).turnsStarted
                omega

theorem loopAux_started_le (d : Dispatcher) (script : List TurnScript) :
    ∀ (s : LoopState) (n : Nat) (flag : Bool),
      (loopAux d script s n flag).turnsStarted ≤ s.turnsStarted + script.length := by
  induction script with
  | nil => intro s n flag; simp [loopAux, mkResult]
  | cons t rest ih =>
      intro s n flag
      cases hpt : processTurn d s.messages t with
      | thrown m st =>
          simp only [loopAux, hpt]
          split <;> simp [mkResult]
      | ok st =>
          simp only [loopAux, hpt]
          split
          · simp only [mkResult, advance, List.length_cons]; omega
          · split
            · simp only [mkResult, advance, List.length_cons]; omega
            · split
              · simp only [mkResult, advance, List.length_cons]; omega
              · have h2 := ih (advance s st (n + 1)) (n + 1)
                  ((lastMessage st.messages).role != .tool)
                have hadv : (advance s st (n + 1)).turnsStarted = s.turnsStarted + 1 := rfl
                show (loopAux d rest (advance s st (n + 1)) (n + 1)
                  ((lastMessage st.messages).role != .tool)).turnsStarted ≤
                  s.turnsStarted + (t :: rest).length
                simp only [List.length_cons]
                omega

theorem loopAux_cons_started (d : Dispatcher) (t : TurnScript)
    (rest : List TurnScript) (s : LoopState) (n : Nat) (flag : Bool) :
    s.turnsStarted + 1 ≤ (loopAux d (t :: rest) s n flag).turnsStarted := by
  cases hpt : processTurn d s.messages t with
  | thrown m st =>
      simp only [loopAux, hpt]
      split <;> simp [mkResult]
  | ok st =>
      simp only [loopAux, hpt]
      split
      · simp [mkResult, advance]
      · split
        · simp [mkResult, advance]
        · split
          · simp [mkResult, advance]
          · have h2 := loopAux_started_ge d rest (advance s st (n + 1)) (n + 1)
              ((lastMessage st.messages).role != .tool)
            have hadv : (advance s st (n + 1)).turnsStarted = s.turnsStarted + 1 := rfl
            show s.turnsStarted + 1 ≤ (loopAux d rest (advance s st (n + 1)) (n + 1)
              ((lastMessage st.messages).role != .tool)).turnsStarted
            omega

theorem all_capB_dropLast (l : List (Nat × MessageRole)) (h : l.all capB = true) :
    l.dropLast.all capB = true := by
  rw [List.all_eq_true] at h ⊢
  exact fun p hp => h p ((List.dropLast_sublist l).subset hp)

theorem loopAux_trace_cap (d : Dispatcher) (script : List TurnScript) :
    ∀ (s : LoopState) (n : Nat) (flag : Bool), s.trace.all capB = true →
      (loopAux d script s n flag).trace.dropLast.all capB = true := by
  induction script with
  | nil =>
      intro s n flag h
      simp only [loopAux, mkResult]
      exact all_capB_dropLast _ h
  | cons t rest ih =>
      intro s n flag h
      cases hpt : processTurn d s.messages t with
      | thrown m st =>
          simp only [loopAux, hpt]
          split
          · exact all_capB_dropLast _ h
          · exact all_capB_dropLast _ h
      | ok st =>
          simp only [loopAux, hpt]
          split
          · simp only [mkResult, advance, List.dropLast_concat]; exact h
          · split
            · simp only [mkResult, advance, List.dropLast_concat]; exact h
            · split
              · simp only [mkResult, advance, List.dropLast_concat]; exact h
              · rename_i hex hmax hflag
                have hcap : capB (n + 1, (lastMessage st.messages).role) = true := by
                  by_cases hr : (lastMessage st.messages).role = .tool
                  · simp [capB, hr]
                  · have hne : ((lastMessage st.messages).role != .tool) = true := by
                      simp [bne, hr]
                    simp only [hne, Bool.true_and, Bool.not_eq_true] at hmax
                    simp only [capB, decide_eq_true_eq]
                    simp only [decide_eq_false_iff_not, gt_iff_lt, not_lt] at hmax
                    simp [hmax]
                show (loopAux d rest (advance s st (n + 1)) (n + 1)
                  ((lastMessage st.messages).role != .tool)).trace.dropLast.all capB = true
                apply ih
                simp [advance, List.all_append, h, hcap]

/-- Abort propagation: a turn that throws "AbortError" terminates the loop
silently at that turn, with the messages the turn already appended and no
extra output. -/
theorem loopAux_abort (d : Dispatcher) (t : TurnScript) (rest : List TurnScript)
    (s : LoopState) (n : Nat) (flag : Bool) (st : TurnState)
    (hpt : processTurn d s.messages t = .thrown "AbortError" st) :
    loopAux d (t :: rest) s n flag =
      { messages := st.messages, output := s.output ++ st.output,
        turnsStarted := s.turnsStarted + 1, numOfTurns := n, trace := s.trace,
        reason := .aborted } := by
  simp [loopAux, hpt, mkResult]

/-- C1 (counterexample): six repetitions of (tool turn, text turn) run the
loop for 12 completed turns; it terminates via the max-turns rule at a turn
whose last message is not a Tool-role message, so the turn count at a
non-tool-call terminating turn exceeds the fixed maximum of 10. -/
theorem c1_turn_cap_counterexample :
    (conversationLoop okDispatch script12 [sysMsg]).numOfTurns = 12 ∧
    (conversationLoop okDispatch script12 [sysMsg]).reason = .maxTurns ∧
    (lastMessage (conversationLoop okDispatch script12 [sysMsg]).messages).role ≠
      .tool := by
  decide

/-- C1 (amended): the loop terminates on every finite provider script,
issuing at most one provider request per scripted turn; and the cap rule
only bounds continuation: every completed turn the loop continued past
either ended in a Tool-role message or had turn count at most 10 (so a
terminating non-tool turn itself may exceed 10 after enough exempt tool
turns, as the counterexample shows). -/
theorem c1_turn_cap_amended (d : Dispatcher) (script : List TurnScript)
    (msgs : List ChatMessage) :
    (conversationLoop d script msgs).turnsStarted ≤ script.length ∧
    (conversationLoop d script msgs).trace.dropLast.all capB = true := by
  constructor
  · simpa using loopAux_started_le d script
      { messages := msgs, output := [], turnsStarted := 0, trace := [] } 0 true
  · exact loopAux_trace_cap d script
      { messages := msgs, output := [], turnsStarted := 0, trace := [] } 0 true rfl

/-- C3 (counterexample): with a `task_complete` Tool message as the most
recent message, `chat` still starts a turn (hence issues a provider
request); the termination checks run only after a turn completes. -/
theorem c3_network_call_counterexample :
    (chat okDispatch [textTurn] initC3 "next").turnsStarted = 1 := by
  decide

/-- C3 (amended): whenever a completed turn leaves a Tool-role message
whose toolName is one of the two built-in control-flow tools as the most
recent message, the loop stops at that turn, consuming no further scripted
turns; but a `chat` call always starts at least one turn (one provider
request) first, even when the prior history already ended with
`task_complete`. -/
theorem c3_exit_tool_stops_amended :
    (∀ (d : Dispatcher) (t : TurnScript) (rest : List TurnScript)
       (msgs : List ChatMessage) (st : TurnState),
       processTurn d msgs t = .ok st →
       isExitToolMsg (lastMessage st.messages) = true →
       conversationLoop d (t :: rest) msgs =
         { messages := st.messages, output := st.output, turnsStarted := 1,
           numOfTurns := 1, trace := [(1, (lastMessage st.messages).role)],
           reason := .exitTool }) ∧
    (∀ (d : Dispatcher) (t : TurnScript) (rest : List TurnScript)
       (msgs : List ChatMessage) (input : String),
       1 ≤ (chat d (t :: rest) msgs input).turnsStarted) := by
  constructor
  · intro d t rest msgs st hpt hexit
    simp only [conversationLoop, loopAux, hpt]
    simp [hexit, mkResult, advance]
  · intro d t rest msgs input
    simpa using loopAux_cons_started d t rest
      { messages := msgs ++ [userMessage input], output := [], turnsStarted := 0,
        trace := [] } 0 true

/-- Witness for C3 at a concrete script whose first turn calls
`task_complete`. -/
theorem c3_exit_tool_stops_witness :
    processTurn okDispatch [sysMsg] exitTurn =
      .ok (processTurn okDispatch [sysMsg] exitTurn).state ∧
    isExitToolMsg
      (lastMessage (processTurn okDispatch [sysMsg] exitTurn).state.messages) = true ∧
    conversationLoop okDispatch [exitTurn, textTurn] [sysMsg] =
      { messages := (processTurn okDispatch [sysMsg] exitTurn).state.messages,
        output := (processTurn okDispatch [sysMsg] exitTurn).state.output,
        turnsStarted := 1, numOfTurns := 1,
        trace := [(1, (lastMessage
          (processTurn okDispatch [sysMsg] exitTurn).state.messages).role)],
        reason := .exitTool } ∧
    1 ≤ (chat okDispatch [textTurn] initC3 "next").turnsStarted :=
  ⟨rfl, by decide,
   c3_exit_tool_stops_amended.1 okDispatch exitTurn [textTurn] [sysMsg]
     (processTurn okDispatch [sysMsg] exitTurn).state rfl (by decide),
   c3_exit_tool_stops_amended.2 okDispatch textTurn [] initC3 "next"⟩

/-- C5 (counterexample): two consecutive tool-calling turns followed by a
plain-text turn do NOT terminate the loop at the text turn: the flag is
false there (cleared by the second tool turn), so the loop goes on to
request a fourth turn (here: exhausting the three-turn script). -/
theorem c5_scenario_counterexample :
    (conversationLoop okDispatch [toolTurn, toolTurn, textTurn] [sysMsg]).reason =
      .outOfScript ∧
    (conversationLoop okDispatch [toolTurn, toolTurn, textTurn] [sysMsg]).numOfTurns
      = 3 := by
  decide

/-- C5 (amended): if `nextTurnShouldCallTools` is set and a completed
turn's last message is not a Tool-role message (and the count is within
the cap, which otherwise stops the loop first with reason maxTurns), the
loop stops at that turn with reason expectedTool; when the loop continues,
the flag becomes true after a non-tool turn and false after a tool turn;
consequently two tool turns followed by a text turn continue to a fourth
turn, and if that one is also a text turn the loop stops there, the
conversation ending with the fourth turn's Assistant message. -/
theorem c5_flag_behavior_amended :
    (∀ (d : Dispatcher) (t : TurnScript) (rest : List TurnScript)
       (s : LoopState) (n : Nat) (st : TurnState),
       processTurn d s.messages t = .ok st →
       (lastMessage st.messages).role ≠ .tool → n + 1 ≤ MAX_NUM_TURNS →
       loopAux d (t :: rest) s n true =
         mkResult (advance s st (n + 1)) (n + 1) .expectedTool) ∧
    (∀ (d : Dispatcher) (t : TurnScript) (rest : List TurnScript)
       (s : LoopState) (n : Nat) (flag : Bool) (st : TurnState),
       processTurn d s.messages t = .ok st →
       isExitToolMsg (lastMessage st.messages) = false →
       ((lastMessage st.messages).role = .tool ∨
        ((lastMessage st.messages).role ≠ .tool ∧ n + 1 ≤ MAX_NUM_TURNS ∧
         flag = false)) →
       loopAux d (t :: rest) s n flag =
         loopAux d rest (advance s st (n + 1)) (n + 1)
           ((lastMessage st.messages).role != .tool)) ∧
    (conversationLoop okDispatch [toolTurn, toolTurn, textTurn, textTurn]
       [sysMsg]).reason = .expectedTool ∧
    (conversationLoop okDispatch [toolTurn, toolTurn, textTurn, textTurn]
       [sysMsg]).numOfTurns = 4 ∧
    lastMessage (conversationLoop okDispatch [toolTurn, toolTurn, textTurn, textTurn]
       [sysMsg]).messages = { role := .assistant, content := "ok" } := by
  refine ⟨?_, ?_, by decide, by decide, by decide⟩
  · intro d t rest s n st hpt hr hn
    have hexit : isExitToolMsg (lastMessage st.messages) = false := by
      simp [isExitToolMsg, hr]
    have hbne : ((lastMessage st.messages).role != .tool) = true := by
      simp [bne, hr]
    have hble : decide (n + 1 > MAX_NUM_TURNS) = false := by
      simp only [gt_iff_lt, decide_eq_false_iff_not, not_lt]
      omega
    simp only [loopAux, hpt]
    simp [hexit, hbne, hble, mkResult]
  · intro d t rest s n flag st hpt hexit hcont
    simp only [loopAux, hpt]
    rcases hcont with hr | ⟨hr, hn, hf⟩
    · have hbne : ((lastMessage st.messages).role != .tool) = false := by
        simp [bne, hr]
      simp [hexit, hbne]
    · have hbne : ((lastMessage st.messages).role != .tool) = true := by
        simp [bne, hr]
      have hble : decide (n + 1 > MAX_NUM_TURNS) = false := by
        simp only [gt_iff_lt, decide_eq_false_iff_not, not_lt]
        omega
      simp [hexit, hbne, hble, hf]

/-- Witness for C5 at concrete turns: a text turn at `n = 0` with the flag
set stops the loop, and a tool turn continues it with the flag cleared. -/
theorem c5_flag_behavior_witness :
    processTurn okDispatch [sysMsg] textTurn =
      .ok (processTurn okDispatch [sysMsg] textTurn).state ∧
    loopAux okDispatch [textTurn]
      { messages := [sysMsg], output := [], turnsStarted := 0, trace := [] } 0 true =
      mkResult (advance
        { messages := [sysMsg], output := [], turnsStarted := 0, trace := [] }
        (processTurn okDispatch [sysMsg] textTurn).state 1) 1 .expectedTool ∧
    loopAux okDispatch [toolTurn, textTurn]
      { messages := [sysMsg], output := [], turnsStarted := 0, trace := [] } 0 true =
      loopAux okDispatch [textTurn] (advance
        { messages := [sysMsg], output := [], turnsStarted := 0, trace := [] }
        (processTurn okDispatch [sysMsg] toolTurn).state 1) 1
        ((lastMessage (processTurn okDispatch [sysMsg] toolTurn).state.messages).role
          != .tool) :=
  ⟨rfl,
   c5_flag_behavior_amended.1 okDispatch textTurn []
     { messages := [sysMsg], output := [], turnsStarted := 0, trace := [] } 0
     (processTurn okDispatch [sysMsg] textTurn).state rfl (by decide) (by decide),
   c5_flag_behavior_amended.2.1 okDispatch toolTurn [textTurn]
     { messages := [sysMsg], output := [], turnsStarted := 0, trace := [] } 0 true
     (processTurn okDispatch [sysMsg] toolTurn).state rfl (by decide)
     (Or.inl (by decide))⟩

/-- C9 (counterexample): when cancellation surfaces mid-stream after a tool
call was already processed, the loop terminates silently but the Assistant
and Tool messages appended earlier in that turn remain: history is not
just the initiating user message. -/
theorem c9_abort_counterexample :
    (chat okDispatch abortScript [sysMsg] "go").reason = .aborted ∧
    (chat okDispatch abortScript [sysMsg] "go").messages.length = 4 ∧
    (chat okDispatch abortScript [sysMsg] "go").messages ≠
      [sysMsg] ++ [userMessage "go"] := by
  decide

/-- C9 (amended): a turn that throws "AbortError" terminates the loop
silently — no error text is appended to the yielded output beyond what the
turn had already yielded; in particular, when the very first provider call
rejects with "AbortError" (an already-cancelled signal), `chat` returns
with no messages beyond the initiating user message and yields nothing. -/
theorem c9_abort_silent :
    (∀ (d : Dispatcher) (t : TurnScript) (rest : List TurnScript)
       (msgs : List ChatMessage) (st : TurnState),
       processTurn d msgs t = .thrown "AbortError" st →
       conversationLoop d (t :: rest) msgs =
         { messages := st.messages, output := st.output, turnsStarted := 1,
           numOfTurns := 0, trace := [], reason := .aborted }) ∧
    (∀ (d : Dispatcher) (rest : List TurnScript) (init : List ChatMessage)
       (input : String),
       chat d (.error "AbortError" :: rest) init input =
         { messages := init ++ [userMessage input], output := [], turnsStarted := 1,
           numOfTurns := 0, trace := [], reason := .aborted }) := by
  constructor
  · intro d t rest msgs st hpt
    have := loopAux_abort d t rest
      { messages := msgs, output := [], turnsStarted := 0, trace := [] } 0 true st hpt
    simpa [conversationLoop] using this
  · intro d rest init input
    have := loopAux_abort d (.error "AbortError") rest
      { messages := init ++ [userMessage input], output := [], turnsStarted := 0,
        trace := [] } 0 true (initTurnState (init ++ [userMessage input])) rfl
    simpa [chat, conversationLoop, initTurnState] using this

/-- Witness for C9: an already-cancelled first provider call at a concrete
history. -/
theorem c9_abort_silent_witness :
    processTurn okDispatch [sysMsg] (.error "AbortError") =
      .thrown "AbortError" (initTurnState [sysMsg]) ∧
    conversationLoop okDispatch [.error "AbortError"] [sysMsg] =
      { messages := (initTurnState [sysMsg]).messages,
        output := (initTurnState [sysMsg]).output, turnsStarted := 1,
        numOfTurns := 0, trace := [], reason := .aborted } ∧
    chat okDispatch [.error "AbortError"] [sysMsg] "go" =
      { messages := [sysMsg] ++ [userMessage "go"], output := [], turnsStarted := 1,
        numOfTurns := 0, trace := [], reason := .aborted } :=
  ⟨rfl,
   c9_abort_silent.1 okDispatch (.error "AbortError") [] [sysMsg]
     (initTurnState [sysMsg]) rfl,
   c9_abort_silent.2 okDispatch [] [sysMsg] "go"⟩

/-! ## OpenAI normalizer lemmas -/

theorem stepWire_initToolChunk (parse : String → Option String) (id nm : String)
    (hid : id ≠ "") :
    stepWire parse none (initToolChunk id nm) =
      (some { id := id, name := nm, args := "" }, []) := by
  simp only [stepWire, initToolChunk, truthyStr, orEmpty, Option.bind]
  by_cases hnm : nm == "" <;> simp [hid, hnm]

theorem stepWire_argFragChunk (parse : String → Option String) (a : ActiveToolCall)
    (s : String) :
    stepWire parse (some a) (argFragChunk s) =
      (some { a with args := a.args ++ s }, []) := by
  simp only [stepWire, argFragChunk, truthyStr, orEmpty, Option.bind]
  by_cases hs : s == ""
  · have hs' : s = "" := by simpa using hs
    simp [hs, hs']
  · simp [hs]

theorem stepWire_finish (parse : String → Option String) (a : ActiveToolCall)
    (hparse : parse a.args = none) :
    stepWire parse (some a) finishToolChunk =
      (none, [.tool_call { id := a.id, name := a.name, args := .raw a.args }]) := by
  simp [stepWire, finishToolChunk, hparse]

theorem processStream_frags (parse : String → Option String) (a : ActiveToolCall)
    (frags : List String) (rest : List WireChunk) :
    processStreamResponse parse (frags.map argFragChunk ++ rest) (some a) =
      processStreamResponse parse rest
        (some { a with args := a.args ++ concatStrs frags }) := by
  induction frags generalizing a with
  | nil => simp [concatStrs]
  | cons s fr ih =>
      simp only [List.map_cons, List.cons_append, processStreamResponse,
        stepWire_argFragChunk, List.nil_append, List.append_eq]
      rw [ih]
      simp [concatStrs, String.append_assoc]

/-- C6: when the buffered tool-call argument text fails to parse as JSON,
the normalizer still emits the tool_call chunk, with the raw concatenated
argument string as the argument payload; feeding that stream through the
agent's turn records the raw string as the tool call's argument value in
both the dispatched call and the appended history. -/
theorem c6_malformed_args_raw (parse : String → Option String) (id nm : String)
    (frags : List String) (d : Dispatcher) (msgs : List ChatMessage) (res : String)
    (hid : id ≠ "")
    (hparse : parse (concatStrs frags) = none)
    (hd : d nm (.raw (concatStrs frags)) = .ok res) :
    processStreamResponse parse
        (initToolChunk id nm :: (frags.map argFragChunk ++ [finishToolChunk])) none =
      [.tool_call { id := id, name := nm, args := .raw (concatStrs frags) }] ∧
    processTurn d msgs (.ok ((processStreamResponse parse
        (initToolChunk id nm :: (frags.map argFragChunk ++ [finishToolChunk]))
        none).map StreamEvent.chunk)) =
      .ok { messages := msgs ++
              [{ role := .assistant, content := "",
                 toolCalls := [{ id := id, name := nm,
                                 args := .raw (concatStrs frags) }] },
               { role := .tool, content := res, toolName := some nm,
                 toolCallId := some id }],
            output := [toolNotice nm res (concatStrs frags)],
            dispatchCalls := [(nm, .raw (concatStrs frags))],
            responseText := "", hasToolCall := true } := by
  have hstream : processStreamResponse parse
      (initToolChunk id nm :: (frags.map argFragChunk ++ [finishToolChunk])) none =
      [.tool_call { id := id, name := nm, args := .raw (concatStrs frags) }] := by
    simp only [processStreamResponse, stepWire_initToolChunk parse id nm hid,
      List.nil_append]
    rw [processStream_frags]
    have ha : ({ id := id, name := nm, args := "" } : ActiveToolCall).args ++
        concatStrs frags = concatStrs frags := String.empty_append _
    simp only [ha]
    simp only [processStreamResponse,
      stepWire_finish parse { id := id, name := nm, args := concatStrs frags } hparse]
    simp
  refine ⟨hstream, ?_⟩
  rw [hstream]
  have h2 := processTurn_tool_ok d msgs [] []
    { id := id, name := nm, args := .raw (concatStrs frags) } res (by simpa using hd)
  simpa [textEvents, concatStrs, displayArgs] using h2

/-- Witness for C6 at a concrete stream whose argument fragments "ab","cd"
do not parse. -/
theorem c6_malformed_args_raw_witness :
    noParse (concatStrs ["ab", "cd"]) = none ∧
    processStreamResponse noParse
        (initToolChunk "call1" "t" ::
          (["ab", "cd"].map argFragChunk ++ [finishToolChunk])) none =
      [.tool_call { id := "call1", name := "t",
                    args := .raw (concatStrs ["ab", "cd"]) }] ∧
    processTurn okDispatch [sysMsg] (.ok ((processStreamResponse noParse
        (initToolChunk "call1" "t" ::
          (["ab", "cd"].map argFragChunk ++ [finishToolChunk]))
        none).map StreamEvent.chunk)) =
      .ok { messages := [sysMsg] ++
              [{ role := .assistant, content := "",
                 toolCalls := [{ id := "call1", name := "t",
                                 args := .raw (concatStrs ["ab", "cd"]) }] },
               { role := .tool, content := "result", toolName := some "t",
                 toolCallId := some "call1" }],
            output := [toolNotice "t" "result" (concatStrs ["ab", "cd"])],
            dispatchCalls := [("t", .raw (concatStrs ["ab", "cd"]))],
            responseText := "", hasToolCall := true } := by
  have h := c6_malformed_args_raw noParse "call1" "t" ["ab", "cd"] okDispatch [sysMsg]
    "result" (by decide) rfl rfl
  exact ⟨rfl, h.1, h.2⟩

/-- C7 (counterexample): "o3" is detected as a reasoning model, yet with
no maxCompletionTokens supplied its outbound request carries NO
completion-token cap, contradicting the claim that a reasoning model's
request always carries one. -/
theorem c7_token_cap_counterexample :
    isReasoningModel [] "o3" = true ∧
    buildOpenAIRequest [] { model := "o3" } =
      { model := "o3", temperature := none, max_tokens := none,
        reasoning_effort := some "medium", max_completion_tokens := none } := by
  decide

/-- C7 (amended): a model is treated as a reasoning model iff its
lower-cased id starts with the letter o followed by a digit or the
case-insensitively looked-up ModelConfig flags `isReasoningModel`; a
reasoning model's request carries a reasoning-effort field (the configured
value when truthy, else "medium"), no temperature and no max_tokens, and a
completion-token cap exactly when a nonzero maxCompletionTokens was
supplied; a non-reasoning model's request carries the supplied
temperature/max_tokens and neither reasoning field. The o4-mini scenario
(isReasoningModel true, reasoningEffort "high", maxCompletionTokens 4096)
yields effort "high", cap 4096 and no temperature. -/
theorem c7_reasoning_request_amended :
    (∀ (models : List ModelConfig) (id : String),
       isReasoningModel models id = true ↔
         (isOSeries (toLowerStr id) = true ∨
          (models.find? (fun m => toLowerStr m.id == toLowerStr id)).any
            (fun m => m.isReasoningModel == some true) = true)) ∧
    (∀ (models : List ModelConfig) (p : ChatParams),
       isReasoningModel models p.model = true →
       (buildOpenAIRequest models p).reasoning_effort =
         some (match p.reasoningEffort with
               | some e => if e == "" then "medium" else e
               | none => "medium") ∧
       (buildOpenAIRequest models p).temperature = none ∧
       (buildOpenAIRequest models p).max_tokens = none ∧
       (buildOpenAIRequest models p).max_completion_tokens =
         (match p.maxCompletionTokens with
          | some n => if n == 0 then none else some n
          | none => none)) ∧
    (∀ (models : List ModelConfig) (p : ChatParams),
       isReasoningModel models p.model = false →
       (buildOpenAIRequest models p).temperature = p.temperature ∧
       (buildOpenAIRequest models p).max_tokens = p.maxTokens ∧
       (buildOpenAIRequest models p).reasoning_effort = none ∧
       (buildOpenAIRequest models p).max_completion_tokens = none) ∧
    buildOpenAIRequest m0 (buildChatParams m0 "o4-mini") =
      { model := "o4-mini", temperature := none, max_tokens := none,
        reasoning_effort := some "high", max_completion_tokens := some 4096 } := by
  refine ⟨?_, ?_, ?_, by decide⟩
  · intro models id
    simp only [isReasoningModel, Bool.or_eq_true]
    cases models.find? (fun m => toLowerStr m.id == toLowerStr id) <;>
      simp [Option.any]
  · intro models p h
    simp only [buildOpenAIRequest, h, if_true]
    cases hmc : p.maxCompletionTokens with
    | none => simp
    | some n =>
        by_cases hn : n == 0 <;> simp [hn]
  · intro models p h
    simp only [buildOpenAIRequest, h, Bool.false_eq_true, if_false]
    cases ht : p.temperature with
    | none =>
        cases hm : p.maxTokens with
        | none => simp
        | some k => simp
    | some t =>
        cases hm : p.maxTokens with
        | none => simp
        | some k => simp

/-- Witness for C7's conditional parts at concrete inputs. -/
theorem c7_reasoning_request_witness :
    isReasoningModel m0 "o4-mini" = true ∧
    (buildOpenAIRequest m0 (buildChatParams m0 "o4-mini")).temperature = none ∧
    isReasoningModel [] "gpt-4" = false ∧
    (buildOpenAIRequest []
      { model := "gpt-4", temperature := some 1, maxTokens := some 256 }).temperature
      = some 1 :=
  ⟨by decide,
   (c7_reasoning_request_amended.2.1 m0 (buildChatParams m0 "o4-mini")
     (by decide)).2.1,
   by decide,
   (c7_reasoning_request_amended.2.2.1 []
     { model := "gpt-4", temperature := some 1, maxTokens := some 256 } (by decide)).1⟩

/-- C8 (counterexample): with every attempt failing "overloaded", the
request is retried only twice (three attempts in total) with waits of 2s
and 4s — never 8s — and the final failure is thrown to the caller rather
than surfaced as a text chunk. -/
theorem c8_retry_counterexample :
    (anthCreateWithRetry (fun _ => .error "overloaded")).waits ≠ [2000, 4000, 8000] ∧
    (anthCreateWithRetry (fun _ => .error "overloaded")).attempts = 3 ∧
    (anthCreateWithRetry (fun _ => .error "overloaded")).outcome =
      Except.error "overloaded" := by
  decide

/-- C8 (amended): an "overloaded" create failure is retried with waits of
2^k seconds, but only twice — three create attempts in all, waits 2s and
4s — and if the third attempt also fails the error is thrown, not
surfaced as a chunk; a non-overloaded create failure is thrown immediately
without retrying; an error raised while consuming the stream is not
retried and terminates the stream with a single inline text chunk (a fixed
overloaded message, or the error message otherwise). -/
theorem c8_retry_amended :
    (∀ outcomes : Nat → AttemptResult,
       (∀ k, k < maxRetries → ∃ e, outcomes k = .error e ∧
          includesSubstr e "overloaded" = true) →
       (anthCreateWithRetry outcomes).attempts = 3 ∧
       (anthCreateWithRetry outcomes).waits = [2000, 4000] ∧
       ∃ e, outcomes 2 = .error e ∧
         (anthCreateWithRetry outcomes).outcome = .error e) ∧
    (∀ (outcomes : Nat → AttemptResult) (e : String),
       outcomes 0 = .error e → includesSubstr e "overloaded" = false →
       anthCreateWithRetry outcomes =
         { attempts := 1, waits := [], outcome := .error e }) ∧
    (∀ (outcomes : Nat → AttemptResult) (stream : List AnthStreamItem),
       outcomes 0 = .ok stream →
       anthCreateWithRetry outcomes =
         { attempts := 1, waits := [], outcome := .ok stream }) ∧
    (∀ (randomId m : String) (pre : List AnthChunk),
       anthProcessStreamResponse randomId (pre.map Except.ok ++ [Except.error m]) =
         pre.filterMap (processAnthropicStreamChunk randomId) ++
           [StreamChunk.text (if includesSubstr m "overloaded" then anthOverloadedText
                              else anthErrorText m)]) := by
  refine ⟨?_, ?_, ?_, ?_⟩
  · intro outcomes h
    obtain ⟨e0, h0, v0⟩ := h 0 (by decide)
    obtain ⟨e1, h1, v1⟩ := h 1 (by decide)
    obtain ⟨e2, h2, v2⟩ := h 2 (by decide)
    have s1 : anthCreateWithRetry outcomes = anthRetryAux outcomes 2 1 [2 ^ 1 * 1000] := by
      show anthRetryAux outcomes (2 + 1) 0 [] = _
      simp only [anthRetryAux, h0, v0, maxRetries]
      simp
    have s2 : anthRetryAux outcomes 2 1 [2 ^ 1 * 1000] =
        anthRetryAux outcomes 1 2 [2 ^ 1 * 1000, 2 ^ 2 * 1000] := by
      show anthRetryAux outcomes (1 + 1) 1 [2 ^ 1 * 1000] = _
      simp only [anthRetryAux, h1, v1, maxRetries]
      simp
    have s3 : anthRetryAux outcomes 1 2 [2 ^ 1 * 1000, 2 ^ 2 * 1000] =
        { attempts := 3, waits := [2 ^ 1 * 1000, 2 ^ 2 * 1000],
          outcome := .error e2 } := by
      show anthRetryAux outcomes (0 + 1) 2 [2 ^ 1 * 1000, 2 ^ 2 * 1000] = _
      simp only [anthRetryAux, h2, v2, maxRetries]
      simp
    rw [s1, s2, s3]
    refine ⟨rfl, by norm_num, e2, h2, rfl⟩
  · intro outcomes e h0 v0
    show anthRetryAux outcomes (2 + 1) 0 [] = _
    simp only [anthRetryAux, h0, v0]
    simp
  · intro outcomes stream h0
    show anthRetryAux outcomes (2 + 1) 0 [] = _
    simp only [anthRetryAux, h0]
  · intro randomId m pre
    induction pre with
    | nil => simp [anthProcessStreamResponse]
    | cons c pre ih =>
        simp only [List.map_cons, List.cons_append, anthProcessStreamResponse,
          List.filterMap_cons]
        cases hc : processAnthropicStreamChunk randomId c with
        | none => simpa using ih
        | some sc => simpa using ih

/-- Witness for C8 at concrete attempt outcomes and a concrete stream. -/
theorem c8_retry_witness :
    (anthCreateWithRetry (fun _ => Except.error "req overloaded now")).attempts = 3 ∧
    (anthCreateWithRetry (fun _ => Except.error "req overloaded now")).waits =
      [2000, 4000] ∧
    anthCreateWithRetry (fun _ => Except.error "bad key") =
      { attempts := 1, waits := [], outcome := Except.error "bad key" } ∧
    anthProcessStreamResponse "r" ([].map Except.ok ++ [Except.error "boom"]) =
      [].filterMap (processAnthropicStreamChunk "r") ++
        [StreamChunk.text (if includesSubstr "boom" "overloaded" then
          anthOverloadedText else anthErrorText "boom")] :=
  ⟨(c8_retry_amended.1 (fun _ => Except.error "req overloaded now")
      (fun k _ => ⟨"req overloaded now", rfl, by decide⟩)).1,
   (c8_retry_amended.1 (fun _ => Except.error "req overloaded now")
      (fun k _ => ⟨"req overloaded now", rfl, by decide⟩)).2.1,
   c8_retry_amended.2.1 (fun _ => Except.error "bad key") "bad key" rfl (by decide),
   c8_retry_amended.2.2.2 "r" "boom" []⟩

end Bibble
